import Mathlib

set_option maxRecDepth 100000

/-!
Verification of the MPEG-2 TS demuxer core (src/demux/tsdemuxer.js and
src/demux/hevc-sps-parser.js) against its natural-language specification.

The JavaScript source is shallowly embedded: byte buffers are `List Nat`
(each entry 0..255), JS numbers are `Nat` or `Int` as appropriate, and JS
exceptions are an explicit error type.  Every definition is translated from
the source file; the few places where a helper is not present in the
sources (it lives in a module outside the provided tree) carry a doc
comment starting with "Modelled from the spec:".
-/

/-- JS runtime errors that the embedded code can raise.  An ES module runs in
strict mode, so reading or writing an undeclared identifier raises a
ReferenceError; constructing a typed array with a negative length raises a
RangeError; reading a property of `undefined` raises a TypeError (carrying
the property name). -/
inductive JsError where
  | referenceError (name : String)
  | rangeError (msg : String)
  | typeError (prop : String)
deriving DecidableEq, Repr

/-- Resolution of an identifier against the set of declared names in scope:
a name that is not declared raises a ReferenceError (strict mode). -/
def jsVarRef (scope : List String) (name : String) : Except JsError Unit :=
  if name ∈ scope then .ok () else .error (.referenceError name)

/-- `TSDemuxer._syncOffset` scan loop: find the least `i` inside the scan
window with sync bytes 0x47 at `i`, `i+188`, `i+2*188`; otherwise -1.  The
loop variable steps by 1, so the remaining window size `scanwindow - i` is
carried as the recursion argument.  Out-of-range reads model the JS
`undefined` (which compares unequal to 0x47) as the default 0. -/
def syncOffsetGo (data : List Nat) (i : Nat) : Nat → Int
  | 0 => -1
  | window + 1 =>
    if data.getD i 0 = 0x47 ∧ data.getD (i + 188) 0 = 0x47 ∧ data.getD (i + 2*188) 0 = 0x47 then
      (i : Int)
    else
      syncOffsetGo data (i + 1) window

/-- `TSDemuxer._syncOffset`: `scanwindow = Math.min(1000, data.length - 3*188)`.
For `data.length < 564` the JS value is negative and the loop body never runs;
Nat subtraction models this by clamping the window to 0. -/
def TSDemuxer.syncOffset (data : List Nat) : Int :=
  syncOffsetGo data 0 (min 1000 (data.length - 3*188))

/-- `TSDemuxer.probe`: true iff `_syncOffset` is non-negative. -/
def TSDemuxer.probe (data : List Nat) : Bool :=
  0 ≤ TSDemuxer.syncOffset data

/-- The identifiers declared in the scope of `TSDemuxer.push` (its eight
parameters and every `var`/`let`-declared name of the function body, per the
source).  Notably absent: `contiguous`, `audioId`, `audioData`, `last`,
`audioTrack`, `avcTrack`, `id3Track`, `accurateTimeOffset`, which the body
nevertheless references. -/
def pushScopeNames : List String :=
  ["data", "audioCodec", "videoCodec", "timeOffset", "cc", "level", "sn", "duration",
   "videoData", "aacData", "id3Data", "start", "len", "stt", "pid", "atf", "offset",
   "codecsOnly", "unknownPIDs", "pmtParsed", "videoPID", "videoStreamType", "aacId",
   "id3Id", "pmtId", "parsePAT", "parsePMT", "parsePES", "parseHEVCPES", "parseAVCPES",
   "parseAACPES", "parseMPEGPES", "parseID3PES", "syncOffset", "parsedPIDs", "pes",
   "pesData", "newData"]

/-- `TSDemuxer.push`.  The first statement after the `var` initializers is
`this.contiguous = contiguous;` whose right-hand side resolves the identifier
`contiguous`, which is declared nowhere in scope, so in strict mode execution
raises a ReferenceError before the first TS packet is examined.  (The `var`
initializers on the preceding lines are side-effect free given a constructed
demuxer, so the reference to `contiguous` is the first failing step; the rest
of the body is unreachable and is represented by the trailing `pure`.) -/
def TSDemuxer.push (data : List Nat) : Except JsError Unit := do
  let _len := data.length
  jsVarRef pushScopeNames "contiguous"
  pure ()

/-- A 188-byte TS packet whose sync byte is 0x47 and whose remaining bytes are
zero. -/
def tsPacket47 : List Nat := 0x47 :: List.replicate 187 0

/-- Four zero-filled TS packets: a 752-byte buffer on which `probe` is true
(sync bytes at offsets 0, 188, 376 inside the 188-byte scan window). -/
def cexC1buf : List Nat := tsPacket47 ++ tsPacket47 ++ tsPacket47 ++ tsPacket47

/-- Result record of `_parsePMT`.  The JS literal is
`{ aac : -1, videoPID : -1, videoStreamType: -1, id3 : -1 }`: it has *no*
`audio` property, so the absent property is modelled as `audioRes : Option Int`
initialized to `none` (reading an absent property yields `undefined`, and
`undefined === -1` is false). -/
structure PMTResult where
  aac : Int
  videoPID : Int
  videoStreamType : Int
  id3 : Int
  audioRes : Option Int
deriving DecidableEq, Repr

/-- `_parsePMT` elementary-stream loop (`while (offset < tableEnd)`).  Each
iteration advances `offset` by at least 5, so `tableEnd` is enough fuel.
Stream types handled by the source: 0x0f (AAC; guarded by
`result.audio === -1`, i.e. `audioRes = some (-1)`, which is never true since
the property starts out absent), 0x15 (ID3), 0x24 (HEVC), 0x1b (AVC); every
other stream type — including MPEG audio 0x03/0x04 — falls to the default
branch and is ignored. -/
def parsePMTGo (data : List Nat) (tableEnd : Nat) (offset : Nat) (r : PMTResult) :
    Nat → PMTResult
  | 0 => r
  | fuel + 1 =>
    if offset < tableEnd then
      let pid : Int := (((data.getD (offset+1) 0 &&& 0x1F) <<< 8 ||| data.getD (offset+2) 0 : Nat) : Int)
      let streamType := data.getD offset 0
      let r' :=
        if streamType = 0x0f then
          (if r.audioRes = some (-1) then { r with audioRes := some pid } else r)
        else if streamType = 0x15 then
          (if r.id3 = -1 then { r with id3 := pid } else r)
        else if streamType = 0x24 ∨ streamType = 0x1b then
          (if r.videoPID = -1 then { r with videoPID := pid, videoStreamType := (streamType : Int) } else r)
        else r
      parsePMTGo data tableEnd
        (offset + (((data.getD (offset+3) 0 &&& 0x0F) <<< 8 ||| data.getD (offset+4) 0) + 5)) r' fuel
    else r

/-- `TSDemuxer._parsePMT`. -/
def TSDemuxer.parsePMT (data : List Nat) (offset : Nat) : PMTResult :=
  let sectionLength := (data.getD (offset+1) 0 &&& 0x0f) <<< 8 ||| data.getD (offset+2) 0
  let tableEnd := offset + 3 + sectionLength - 4
  let programInfoLength := (data.getD (offset+10) 0 &&& 0x0f) <<< 8 ||| data.getD (offset+11) 0
  parsePMTGo data tableEnd (offset + 12 + programInfoLength) ⟨-1, -1, -1, -1, none⟩ tableEnd

/-- The audio/id3 tracks as built by `resetInitSegment` (JS object literals;
`id` starts at -1). -/
structure DemuxTrack where
  container : Option String
  type : String
  id : Int
  sequenceNumber : Nat
  samples : List Unit
  len : Nat
deriving DecidableEq, Repr

/-- The video track as built by `resetInitSegment`.  Note it has *no* `id`
field at all — only `PID` and `streamType`. -/
structure VideoTrackReset where
  container : String
  type : String
  streamType : Int
  PID : Int
  sequenceNumber : Nat
  samples : List Unit
  len : Nat
  nbNalu : Nat
  dropped : Nat
deriving DecidableEq, Repr

/-- `this._aacTrack = {container:'video/mp2t', type:'audio', id:-1, ...}`. -/
def resetAacTrack : DemuxTrack := ⟨some "video/mp2t", "audio", -1, 0, [], 0⟩

/-- `this._id3Track = {type:'id3', id:-1, ...}`. -/
def resetId3Track : DemuxTrack := ⟨none, "id3", -1, 0, [], 0⟩

/-- `this._txtTrack = {type:'text', id:-1, ...}`. -/
def resetTxtTrack : DemuxTrack := ⟨none, "text", -1, 0, [], 0⟩

/-- `this._videoTrack = {container:'video/mp2t', type:'video', streamType:-1,
PID:-1, ...}` — no `id` field. -/
def resetVideoTrack : VideoTrackReset := ⟨"video/mp2t", "video", -1, -1, 0, [], 0, 0, 0⟩

/-- The constant `RemuxerTrackIdConfig` object (video=0, audio=1, id3=2,
text=3) used only by the static `createTrack`, which `resetInitSegment` never
calls. -/
def RemuxerTrackIdConfig (t : String) : Int :=
  if t = "video" then 0 else if t = "audio" then 1 else if t = "id3" then 2 else 3

/-- The PMT branch of `push`:
`aacId = this._aacTrack.id = parsedPIDs.aac;`
`id3Id = this._id3Track.id = parsedPIDs.id3;`
`videoPID = this._videoTrack.PID = parsedPIDs.videoPID;`
`videoStreamType = this._videoTrack.streamType = parsedPIDs.videoStreamType;` -/
def pushPMTAssign (aacT id3T : DemuxTrack) (videoT : VideoTrackReset) (parsed : PMTResult) :
    DemuxTrack × DemuxTrack × VideoTrackReset :=
  ({ aacT with id := parsed.aac },
   { id3T with id := parsed.id3 },
   { videoT with PID := parsed.videoPID, streamType := parsed.videoStreamType })

/-- A PMT section (section length 18) with a single elementary-stream entry of
stream type 0x0F (ADTS AAC) on PID 257. -/
def cexPMTaac : List Nat :=
  [0x02, 0xB0, 18, 0, 0, 0, 0, 0, 0, 0, 0, 0, 0x0F, 0x01, 0x01, 0, 0]

/-- A PMT section (section length 23) carrying MPEG audio entries: stream type
0x03 on PID 257 and stream type 0x04 on PID 258. -/
def cexPMTmpeg : List Nat :=
  [0x02, 0xB0, 23, 0, 0, 0, 0, 0, 0, 0, 0, 0, 0x03, 0x01, 0x01, 0, 0, 0x04, 0x01, 0x02, 0, 0]

/-- A PMT section (section length 18) with a single ID3 (stream type 0x15)
entry on PID 258. -/
def cexPMTid3 : List Nat :=
  [0x02, 0xB0, 18, 0, 0, 0, 0, 0, 0, 0, 0, 0, 0x15, 0x01, 0x02, 0, 0]

/-- A CEA-608 caption sample `{type, pts, bytes}` as inserted into the text
track. -/
structure CCSample where
  type : Nat
  pts : Int
  bytes : List Nat
deriving DecidableEq, Repr

instance : Inhabited CCSample := ⟨⟨0, 0, []⟩⟩

/-- The descending `for (pos = len-1; pos >= 0; pos--)` loop of
`_insertSampleInOrder`: at the first position (from the right) whose pts is
greater than the new sample's, splice the sample in at that position and stop;
if the loop runs out, the array is left unchanged. -/
def insertLoop (arr : List CCSample) (d : CCSample) : Nat → List CCSample
  | 0 => if d.pts < (arr.getD 0 default).pts then List.insertNth 0 d arr else arr
  | pos + 1 =>
    if d.pts < (arr.getD (pos+1) default).pts then List.insertNth (pos+1) d arr
    else insertLoop arr d pos

/-- `TSDemuxer._insertSampleInOrder`. -/
def TSDemuxer.insertSampleInOrder (arr : List CCSample) (d : CCSample) : List CCSample :=
  if 0 < arr.length then
    if (arr.getD (arr.length - 1) default).pts ≤ d.pts then arr ++ [d]
    else insertLoop arr d (arr.length - 1)
  else arr ++ [d]

/-- Non-decreasing pts order of a caption sample list. -/
def sortedByPts : List CCSample → Bool
  | [] => true
  | [_] => true
  | x :: y :: r => decide (x.pts ≤ y.pts) && sortedByPts (y :: r)

/-- `discardEPB` first loop (`i = 1; while (i < length - 2)`): collect the
indices of emulation-prevention 0x03 bytes.  Each iteration advances `i` by 1
or 2 and consumes one unit of fuel, so `d.length` is enough fuel. -/
def epbScanGo (d : List Nat) (i : Nat) : Nat → List Nat
  | 0 => []
  | fuel + 1 =>
    if i < d.length - 2 then
      if d.getD i 0 = 0 ∧ d.getD (i+1) 0 = 0 ∧ d.getD (i+2) 0 = 3 then
        (i + 2) :: epbScanGo d (i + 2) fuel
      else epbScanGo d (i + 1) fuel
    else []

/-- The `EPBPositions` list computed by `discardEPB` (scan starts at i = 1). -/
def epbPositions (d : List Nat) : List Nat := epbScanGo d 1 d.length

/-- `discardEPB` second loop: copy every byte except those at the (ascending)
positions in `ps`; `j` is the current source index. -/
def removeIdxs : List Nat → Nat → List Nat → List Nat
  | [], _, _ => []
  | x :: rest, j, ps =>
    if ps.head? = some j then removeIdxs rest (j+1) ps.tail
    else x :: removeIdxs rest (j+1) ps

/-- `TSDemuxer.discardEPB`: returns the original array when no emulation
prevention bytes were found, otherwise rebuilds the array skipping them. -/
def TSDemuxer.discardEPB (d : List Nat) : List Nat :=
  if epbPositions d = [] then d else removeIdxs d 0 (epbPositions d)

/-- The PES accumulator handed to `_parsePES`: a list of payload slices and
their total size. -/
structure PESStream where
  data : List (List Nat)
  size : Nat
deriving DecidableEq, Repr

/-- Outcome of `_parsePES`: a thrown JS error, the JS `null`, or a
`{data, pts, dts, len}` record (`pts`/`dts` are `none` when the PTS/DTS flags
are clear, modelling the `undefined` properties). -/
inductive PESOut where
  | thrown (e : JsError)
  | null
  | parsed (data : List Nat) (pts dts : Option Int) (len : Int)
deriving DecidableEq, Repr

/-- True iff the outcome is a `{data, pts, dts, len}` record. -/
def PESOut.isParsed : PESOut → Bool
  | .parsed _ _ _ _ => true
  | _ => false

/-- `_parsePES` head-merge loop: while the first slice holds fewer than 19
bytes and more than one slice remains, concatenate the first two slices.
Each step removes one slice, so the number of slices is enough fuel. -/
def mergeHeadGo : List (List Nat) → Nat → List (List Nat)
  | chunks, 0 => chunks
  | c0 :: c1 :: rest, fuel + 1 =>
    if c0.length < 19 then mergeHeadGo ((c0 ++ c1) :: rest) fuel else c0 :: c1 :: rest
  | chunks, _ + 1 => chunks

/-- The slice list after `_parsePES`'s head-merge loop. -/
def mergeHead (chunks : List (List Nat)) : List (List Nat) := mergeHeadGo chunks chunks.length

/-- `_parsePES` payload reassembly: drop `pso` bytes from the front of the
slice list (skipping whole slices while `pso` exceeds them, as the JS loop
does with `payloadStartOffset > len`) and concatenate the rest. -/
def trimChunks : Nat → List (List Nat) → List Nat
  | _, [] => []
  | pso, frag :: rest =>
    if frag.length < pso then trimChunks (pso - frag.length) rest
    else frag.drop pso ++ trimChunks 0 rest

/-- The `if (pesPts > 4294967295) pesPts -= 8589934592` wrap of `_parsePES`. -/
def wrap33 (raw : Int) : Int := if raw > 4294967295 then raw - 8589934592 else raw

/-- The 33-bit PES timestamp read of `_parsePES` at byte offset `o` of the
first slice (used at o = 9 for PTS and o = 14 for DTS):
`(b[o] & 0x0E)*2^29 + (b[o+1] & 0xFF)*2^22 + (b[o+2] & 0xFE)*2^14 +
 (b[o+3] & 0xFF)*2^7 + (b[o+4] & 0xFE)/2`, then the 2^33 wrap. -/
def pesTimestamp (frag : List Nat) (o : Nat) : Int :=
  wrap33 (((frag.getD o 0 &&& 0x0E : Nat) : Int) * 536870912 +
    ((frag.getD (o+1) 0 &&& 0xFF : Nat) : Int) * 4194304 +
    ((frag.getD (o+2) 0 &&& 0xFE : Nat) : Int) * 16384 +
    ((frag.getD (o+3) 0 &&& 0xFF : Nat) : Int) * 128 +
    ((frag.getD (o+4) 0 &&& 0xFE : Nat) : Int) / 2)

/-- `TSDemuxer._parsePES`.  Faithful to the source for accumulators whose
`size` matches the total slice length and is at least 19 (then every header
index the JS reads is in bounds, so the `getD` default never stands in for a
JS `undefined`).  `new Uint8Array(stream.size - payloadStartOffset)` throws a
RangeError when the argument is negative, which the model makes explicit.
The function never references the observer, so no error event can be
triggered from here (silent null returns). -/
def TSDemuxer.parsePES (stream : PESStream) : PESOut :=
  if stream.size = 0 then .null
  else
    let data := mergeHead stream.data
    let frag := data.headD []
    let pesPfx := frag.getD 0 0 * 65536 + frag.getD 1 0 * 256 + frag.getD 2 0
    if pesPfx = 1 then
      let pesLen := frag.getD 4 0 * 256 + frag.getD 5 0
      if pesLen ≠ 0 ∧ (pesLen : Int) > (stream.size : Int) - 6 then .null
      else
        let pesFlags := frag.getD 7 0
        let ts : Option Int × Option Int :=
          if pesFlags &&& 0xC0 ≠ 0 then
            let pesPts := pesTimestamp frag 9
            if pesFlags &&& 0x40 ≠ 0 then
              let pesDts := pesTimestamp frag 14
              (some (if pesPts - pesDts > 60 * 90000 then pesDts else pesPts), some pesDts)
            else (some pesPts, some pesPts)
          else (none, none)
        let pesHdrLen := frag.getD 8 0
        let payloadStartOffset := pesHdrLen + 9
        if (stream.size : Int) - (payloadStartOffset : Int) < 0 then
          .thrown (.rangeError "Invalid typed array length")
        else
          let outLen : Int := if pesLen ≠ 0 then (pesLen : Int) - (pesHdrLen : Int) - 3 else 0
          .parsed (trimChunks payloadStartOffset data) ts.1 ts.2 outLen
    else .null

/-- First slice after the head merge (the slice `_parsePES` reads the header
from). -/
def pesFirstChunk (chunks : List (List Nat)) : List Nat := (mergeHead chunks).headD []

/-- The start-code prefix `_parsePES` reads from bytes 0..2. -/
def pesPfxOf (chunks : List (List Nat)) : Nat :=
  (pesFirstChunk chunks).getD 0 0 * 65536 + (pesFirstChunk chunks).getD 1 0 * 256 +
    (pesFirstChunk chunks).getD 2 0

/-- The PES length field `_parsePES` reads from bytes 4..5. -/
def pesLenOf (chunks : List (List Nat)) : Nat :=
  (pesFirstChunk chunks).getD 4 0 * 256 + (pesFirstChunk chunks).getD 5 0

/-- The PES header length field `_parsePES` reads from byte 8. -/
def pesHdrLenOf (chunks : List (List Nat)) : Nat := (pesFirstChunk chunks).getD 8 0

/-- Hand-crafted standard marker layout for a 33-bit PTS `p`: byte 9 carries
'0010', PTS[32..30] and a marker bit; byte 10 carries PTS[29..22]; byte 11
carries PTS[21..15] and a marker; byte 12 carries PTS[14..7]; byte 13 carries
PTS[6..0] and a marker. -/
def encodePTS (p : Nat) : List Nat :=
  [0x21 + (p / 1073741824) % 8 * 2,
   (p / 4194304) % 256,
   1 + (p / 32768) % 128 * 2,
   (p / 128) % 256,
   1 + p % 128 * 2]

/-- A 14-byte PES header (start code, stream id 0xE0, PES length 0, marker
0x80, flags 0x80 = PTS only, header length 5) followed by the encoded PTS. -/
def craftPESHeader (p : Nat) : List Nat :=
  [0, 0, 1, 0xE0, 0, 0, 0x80, 0x80, 0x05] ++ encodePTS p

/-- A 19-byte accumulated PES whose first three bytes are the start-code
prefix, whose length field is zero, but whose header-length byte (0xFF)
exceeds the accumulated size, driving `_parsePES` into the negative typed
array allocation. -/
def cexPESHdrLen : PESStream :=
  ⟨[[0, 0, 1, 0xE0, 0, 0, 0, 0, 0xFF, 0, 0, 0, 0, 0, 0, 0, 0, 0, 0]], 19⟩

/-- An `observer.trigger(Event.ERROR, {type, details, fatal, reason})` call;
`type` is always MEDIA_ERROR and `details` always FRAG_PARSING_ERROR in
`_parseAACPES`, so only the varying fields are carried. -/
structure ObsEvent where
  fatal : Bool
  reason : String
deriving DecidableEq, Repr

/-- Modelled from the spec: `ADTS.isHeader` lives in the `./adts` module,
which is not under src/.  Spec 4.7: the scan looks for an ADTS header
"(syncword 0xFFFx)", i.e. byte `offset` is 0xFF and the top nibble of byte
`offset+1` is 0xF. -/
def ADTS.isHeader (data : List Nat) (offset : Nat) : Bool :=
  (data.getD offset 0 == 0xFF) && ((data.getD (offset+1) 0 &&& 0xF0) == 0xF0)

/-- `_parseAACPES` sync scan
(`for (offset = 0; offset < len - 1; offset++) if (ADTS.isHeader(...)) break`).
The loop variable steps by 1, one unit of fuel per iteration. -/
def adtsScanGo (data : List Nat) (offset : Nat) : Nat → Nat
  | 0 => offset
  | fuel + 1 =>
    if offset < data.length - 1 then
      if ADTS.isHeader data offset then offset else adtsScanGo data (offset + 1) fuel
    else offset

/-- The offset at which `_parseAACPES`'s scan loop stops (the first ADTS
header before `len - 1`, else `len - 1`; 0 for empty input). -/
def adtsScan (data : List Nat) : Nat := adtsScanGo data 0 data.length

/-- The non-fatal misalignment reason string of `_parseAACPES`. -/
def aacMisalignMsg (offset : Nat) : String :=
  "AAC PES did not start with ADTS header,offset:" ++ toString offset

/-- The head of `TSDemuxer._parseAACPES`: prepend pending overflow bytes,
scan for the first ADTS header, and raise the misalignment errors.  Returns
the observer events together with `some offset` when parsing proceeds from
`offset` (frame scanning and track setup follow in the source) or `none`
when the fatal branch returns early, before any sample is appended. -/
def TSDemuxer.parseAACPES (aacOverFlow : Option (List Nat)) (pesData : List Nat) :
    List ObsEvent × Option Nat :=
  let data := match aacOverFlow with
    | some ov => ov ++ pesData
    | none => pesData
  let len := data.length
  let offset := adtsScan data
  if offset ≠ 0 then
    if offset < len - 1 then
      ([⟨false, aacMisalignMsg offset⟩], some offset)
    else
      ([⟨true, "no ADTS header found in AAC PES"⟩], none)
  else ([], some offset)

/-- The unsigned 32-bit view of a JS number entering a bitwise operator. -/
def jsUInt32 (z : Int) : Nat := (z % 4294967296).toNat

/-- ToInt32: reduce mod 2^32 into the signed range, as JS bitwise operators
do. -/
def jsInt32 (z : Int) : Int :=
  if z % 4294967296 ≥ 2147483648 then z % 4294967296 - 4294967296 else z % 4294967296

/-- JS `a << k` on 32-bit integers. -/
def jsShl32 (a : Int) (k : Nat) : Int := jsInt32 (a * 2 ^ k)

/-- JS `a | b` on 32-bit integers. -/
def jsOr32 (a b : Int) : Int := jsInt32 ((jsUInt32 a ||| jsUInt32 b : Nat) : Int)

/-- JS `a & b` on 32-bit integers. -/
def jsAnd32 (a b : Int) : Int := jsInt32 ((jsUInt32 a &&& jsUInt32 b : Nat) : Int)

/-- The state of `HEVCSpsParser` (hevc-sps-parser.js constructor fields).
`bitsAvailable` is assigned by `getByte` but never read anywhere in the
class — a dead field, carried for fidelity. -/
structure HEVCSpsParser where
  data : List Nat
  bytesAvailable : Nat
  bitsAvailable : Nat
  firstByte : Nat
  cache : Int
  bitsInCache : Nat
deriving DecidableEq, Repr

/-- The constructor: `bytesAvailable = data.byteLength`, `bitsAvailable = 0`,
`firstByte = 0xff`, `cache = 0xff`, `bitsInCache = 0`. -/
def HEVCSpsParser.init (data : List Nat) : HEVCSpsParser := ⟨data, data.length, 0, 0xff, 0xff, 0⟩

/-- `HEVCSpsParser.getByte`: copy `min(1, bytesAvailable)` bytes from
`position = byteLength - bytesAvailable` into a zero-filled 1-byte array and
return its first entry, consuming the copied amount.  With `bytesAvailable`
0 nothing is copied and the zero fill is returned. -/
def HEVCSpsParser.getByte (p : HEVCSpsParser) : Nat × HEVCSpsParser :=
  let position := p.data.length - p.bytesAvailable
  let availableBytes := min 1 p.bytesAvailable
  let byte := if availableBytes = 1 then p.data.getD position 0 else 0
  (byte,
   { p with bitsAvailable := availableBytes * 8,
            bytesAvailable := p.bytesAvailable - availableBytes })

/-- One iteration of the `while (bitsInCache < nbits)` loop of
`HEVCSpsParser.read`: fetch a byte, skip it and fetch again when it is an
emulation-prevention 0x03 following 0x00 0x00, then shift it into the
cache. -/
def HEVCSpsParser.readStep (p : HEVCSpsParser) : HEVCSpsParser :=
  let b1 := (HEVCSpsParser.getByte p).1
  let p1 := (HEVCSpsParser.getByte p).2
  let epb := b1 = 0x03 ∧ p1.firstByte = 0x00 ∧ jsAnd32 p1.cache 0xff = 0
  let byte := if epb then (HEVCSpsParser.getByte p1).1 else b1
  let p2 := if epb then (HEVCSpsParser.getByte p1).2 else p1
  { p2 with cache := jsOr32 (jsShl32 p2.cache 8) (p2.firstByte : Int),
            firstByte := byte,
            bitsInCache := p2.bitsInCache + 8 }

/-- The `read` loop body with fuel; each iteration adds 8 bits to the cache,
so `nbits` iterations are always enough. -/
def readGo (nbits : Nat) (p : HEVCSpsParser) : Nat → HEVCSpsParser
  | 0 => p
  | fuel + 1 =>
    if p.bitsInCache < nbits then readGo nbits (HEVCSpsParser.readStep p) fuel else p

/-- `HEVCSpsParser.read(nbits)`. -/
def HEVCSpsParser.read (nbits : Nat) (p : HEVCSpsParser) : HEVCSpsParser := readGo nbits p nbits

/-- `HEVCSpsParser.skipBits(nbits)`. -/
def HEVCSpsParser.skipBits (nbits : Nat) (p : HEVCSpsParser) : HEVCSpsParser :=
  let p1 := HEVCSpsParser.read nbits p
  { p1 with bitsInCache := p1.bitsInCache - nbits }

/-- `HEVCSpsParser.readBits(nbits)`:
`val = firstByte >> shift; val |= cache << (8 - shift); val &= (1 << nbits) - 1`. -/
def HEVCSpsParser.readBits (nbits : Nat) (p : HEVCSpsParser) : Int × HEVCSpsParser :=
  let p1 := HEVCSpsParser.read nbits p
  let shift := p1.bitsInCache - nbits
  let val0 : Int := ((p1.firstByte >>> shift : Nat) : Int)
  let val1 := jsOr32 val0 (jsShl32 p1.cache (8 - shift))
  let val2 := jsAnd32 val1 (jsShl32 1 nbits - 1)
  (val2, { p1 with bitsInCache := shift })

/-- The j-th byte the reader will deliver next: the remaining input bytes
followed by the zero fill `getByte` produces past the end. -/
def absByte (p : HEVCSpsParser) (j : Nat) : Nat :=
  if j < p.bytesAvailable then p.data.getD (p.data.length - p.bytesAvailable + j) 0 else 0

/-- Well-formedness: the remaining-byte count never exceeds the buffer (true
from the constructor on, since `getByte` only decrements). -/
def ReaderWF (p : HEVCSpsParser) : Prop := p.bytesAvailable ≤ p.data.length

/-- Two reader states are equivalent when they will deliver the same byte
stream and agree on the bit-level fields (the dead `bitsAvailable` field is
not tracked). -/
def ReaderSim (s t : HEVCSpsParser) : Prop :=
  ReaderWF s ∧ ReaderWF t ∧ (∀ j, absByte s j = absByte t j) ∧
  s.firstByte = t.firstByte ∧ s.cache = t.cache ∧ s.bitsInCache = t.bitsInCache

/-- The same reader state over a data buffer extended with `k` zero bytes. -/
def extendZeros (p : HEVCSpsParser) (k : Nat) : HEVCSpsParser :=
  { p with data := p.data ++ List.replicate k 0, bytesAvailable := p.bytesAvailable + k }

/-- Byte position `j` holds an emulation-prevention 0x03 that `discardEPB`'s
scan can see: `j ≥ 3` (the scan starts at index 1, so the earliest removable
position is 3) and the two preceding bytes are zero with a 0x03 at `j`.
Out-of-range reads default to 0, so positions at or beyond the length are
never selected. -/
def isEPBposB (d : List Nat) (j : Nat) : Bool :=
  decide (3 ≤ j) && (d.getD (j-2) 0 == 0) && (d.getD (j-1) 0 == 0) && (d.getD j 0 == 3)

/-- The ascending list of positions in `[m, m + cnt)` satisfying `P`. -/
def filterPositions (P : Nat → Bool) : Nat → Nat → List Nat
  | _, 0 => []
  | m, cnt + 1 =>
    if P m then m :: filterPositions P (m+1) cnt else filterPositions P (m+1) cnt

/-- The live track object whose `naluState` property `_parseAVCNALu` reads
and writes.  A fresh track object has no `naluState` property yet (reading it
yields `undefined`), so the field is an `Option` and the prologue's `|| 0`
supplies the default. -/
structure AvcNaluTrack where
  naluState : Option Int
deriving DecidableEq, Repr

/-- The demuxer property `this._avcTrack`.  `resetInitSegment` assigns
`_videoTrack`, `_aacTrack`, `_id3Track` and `_txtTrack` (tsdemuxer.js lines
115-130), and no statement anywhere in the class ever writes `_avcTrack`, so
reading the property always yields `undefined`. -/
def TSDemuxer.avcTrackProp : Option AvcNaluTrack := none

/-- The prologue of `_parseAVCNALu` (tsdemuxer.js line 1048):
`var ... track = this._avcTrack, state = track.naluState || 0`.  Reading the
`naluState` property of an `undefined` track throws a TypeError.  This runs
before the start-code scan, so on every call to the method the scan loop and
its `_getLastNalUnit` fix-ups (lines 1085 and 1130 - a method that is itself
defined nowhere in the class) are unreachable, and the cross-call carrier
`track.naluState = state` (line 1138) is never executed. -/
def TSDemuxer.parseAVCNALuState (track : Option AvcNaluTrack) : Except JsError Int :=
  match track with
  | none => .error (.typeError "naluState")
  | some t => .ok (t.naluState.getD 0)

/-- Claim C1: for every buffer accepted by `probe`, `push` never throws.
The code contradicts this (and its own spec'd intent): `push` reads the
undeclared identifier `contiguous` unconditionally, so it raises a
ReferenceError on every input — here evaluated on a concrete probe-accepted
buffer. -/
theorem c1_push_throws_on_probed_buffer :
    TSDemuxer.probe cexC1buf = true ∧
    TSDemuxer.push cexC1buf = .error (.referenceError "contiguous") := by
  constructor
  · decide
  · rfl

/-- Claim C4: `_parsePMT` should return the PID of the first audio
elementary-stream entry (stream type 0x0F, or 0x03/0x04 for MPEG audio) so
that `push` learns it as the audio track's PID.  The code does neither: the
0x0F case guards its write with `result.audio === -1`, but the result object
has no `audio` property (it is initialized as `aac : -1`), so the guard is
always false and nothing is recorded; stream types 0x03/0x04 have no case at
all; and `push` reads `parsedPIDs.aac`, which stays -1.  Evaluated at a PMT
with one AAC entry on PID 257 and at a PMT with MPEG entries 0x03/0x04. -/
theorem c4_pmt_audio_pid_not_learned :
    cexPMTaac.getD 12 0 = 0x0F ∧
    (TSDemuxer.parsePMT cexPMTaac 0).aac = -1 ∧
    (TSDemuxer.parsePMT cexPMTaac 0).audioRes = none ∧
    (TSDemuxer.parsePMT cexPMTmpeg 0).aac = -1 ∧
    (TSDemuxer.parsePMT cexPMTmpeg 0).audioRes = none ∧
    (pushPMTAssign resetAacTrack resetId3Track resetVideoTrack
      (TSDemuxer.parsePMT cexPMTaac 0)).1.id = -1 := by
  decide

/-- Claim C8: a track's `id` should be fixed at video=0, audio=1, id3=2,
text=3 and never change between `resetInitSegment` calls.  The code
contradicts its own `RemuxerTrackIdConfig` documentation: `resetInitSegment`
builds the live tracks with `id : -1` (the video track literal has no `id` at
all), and the PMT branch of `push` overwrites `id` with the PID parsed from
the PMT (here the ID3 track's id becomes 258). -/
theorem c8_track_ids_not_fixed :
    resetAacTrack.id = -1 ∧
    resetId3Track.id = -1 ∧
    resetTxtTrack.id = -1 ∧
    RemuxerTrackIdConfig "audio" = 1 ∧
    RemuxerTrackIdConfig "id3" = 2 ∧
    (pushPMTAssign resetAacTrack resetId3Track resetVideoTrack
      (TSDemuxer.parsePMT cexPMTid3 0)).2.1.id = 258 ∧
    ((-1 : Int) ≠ 1) ∧ ((-1 : Int) ≠ 2) ∧ ((258 : Int) ≠ 2) := by
  decide

/-- Claim C7: `_insertSampleInOrder` should preserve non-decreasing pts order.
It does not: on the sorted array with pts [1, 5], inserting a sample with
pts 0 splices it immediately before the last element (the descending scan
breaks at the first larger element from the right), producing pts order
[1, 0, 5]. -/
theorem c7_insert_breaks_order :
    sortedByPts [⟨3, 1, []⟩, ⟨3, 5, []⟩] = true ∧
    TSDemuxer.insertSampleInOrder [⟨3, 1, []⟩, ⟨3, 5, []⟩] ⟨3, 0, []⟩ =
      [⟨3, 1, []⟩, ⟨3, 0, []⟩, ⟨3, 5, []⟩] ∧
    sortedByPts [⟨3, 1, []⟩, ⟨3, 0, []⟩, ⟨3, 5, []⟩] = false := by
  decide

/-- Claim C6 counterexample: `discardEPB` does not remove the 0x03 of a
0x00 0x00 0x03 triple beginning at offset 0 (the scan starts at index 1), so
on [0,0,3,1] it is the identity instead of producing the claim's [0,0,1]. -/
theorem c6_counterexample_offset_zero :
    ([0, 0, 3, 1] : List Nat).getD 0 0 = 0 ∧
    ([0, 0, 3, 1] : List Nat).getD 1 0 = 0 ∧
    ([0, 0, 3, 1] : List Nat).getD 2 0 = 3 ∧
    TSDemuxer.discardEPB [0, 0, 3, 1] = [0, 0, 3, 1] ∧
    ([0, 0, 3, 1] : List Nat) ≠ [0, 0, 1] := by
  decide

theorem land_0x0E_marker (a : Nat) (h : a < 8) : (0x21 + a * 2) &&& 0x0E = a * 2 := by
  interval_cases a <;> decide

theorem land_0xFE_marker (c : Nat) (h : c < 128) : (1 + c * 2) &&& 0xFE = c * 2 := by
  interval_cases c <;> decide

theorem land_0xFF_byte (b : Nat) (h : b < 256) : b &&& 0xFF = b := by
  have : (0xFF : Nat) = 2 ^ 8 - 1 := by decide
  rw [this, Nat.and_pow_two_sub_one_of_lt_two_pow]
  exact h

/-- The 33-bit timestamp read of `_parsePES`, applied to the hand-crafted
marker layout, recovers the encoded value with the signed wrap. -/
theorem pesTimestamp_encode (p : Nat) (hp : p < 8589934592) :
    pesTimestamp (craftPESHeader p) 9 =
      if p ≤ 4294967295 then (p : Int) else (p : Int) - 8589934592 := by
  have hn : p / 1073741824 % 8 * 2 * 536870912 + p / 4194304 % 256 * 4194304 +
      p / 32768 % 128 * 2 * 16384 + p / 128 % 256 * 128 + p % 128 = p := by
    omega
  have h9 : (craftPESHeader p).getD 9 0 &&& 0x0E = p / 1073741824 % 8 * 2 := by
    have h : (craftPESHeader p).getD 9 0 = 0x21 + p / 1073741824 % 8 * 2 := rfl
    rw [h]
    exact land_0x0E_marker _ (Nat.mod_lt _ (by norm_num))
  have h10 : (craftPESHeader p).getD 10 0 &&& 0xFF = p / 4194304 % 256 := by
    have h : (craftPESHeader p).getD 10 0 = p / 4194304 % 256 := rfl
    rw [h]
    exact land_0xFF_byte _ (Nat.mod_lt _ (by norm_num))
  have h11 : (craftPESHeader p).getD 11 0 &&& 0xFE = p / 32768 % 128 * 2 := by
    have h : (craftPESHeader p).getD 11 0 = 1 + p / 32768 % 128 * 2 := rfl
    rw [h]
    exact land_0xFE_marker _ (Nat.mod_lt _ (by norm_num))
  have h12 : (craftPESHeader p).getD 12 0 &&& 0xFF = p / 128 % 256 := by
    have h : (craftPESHeader p).getD 12 0 = p / 128 % 256 := rfl
    rw [h]
    exact land_0xFF_byte _ (Nat.mod_lt _ (by norm_num))
  have h13 : (craftPESHeader p).getD 13 0 &&& 0xFE = p % 128 * 2 := by
    have h : (craftPESHeader p).getD 13 0 = 1 + p % 128 * 2 := rfl
    rw [h]
    exact land_0xFE_marker _ (Nat.mod_lt _ (by norm_num))
  unfold pesTimestamp
  rw [h9, h10, h11, h12, h13]
  have hdiv : ((p % 128 * 2 : Nat) : Int) / 2 = ((p % 128 : Nat) : Int) := by
    push_cast
    omega
  rw [hdiv]
  have hs : ((p / 1073741824 % 8 * 2 : Nat) : Int) * 536870912 +
      ((p / 4194304 % 256 : Nat) : Int) * 4194304 +
      ((p / 32768 % 128 * 2 : Nat) : Int) * 16384 +
      ((p / 128 % 256 : Nat) : Int) * 128 + ((p % 128 : Nat) : Int) = (p : Int) := by
    exact_mod_cast hn
  rw [hs]
  unfold wrap33
  split_ifs <;> omega

/-- Running `_parsePES` on the crafted 14-byte single-slice stream selects the
PTS-only branch and returns the two timestamps read at offset 9. -/
theorem parsePES_craft (p : Nat) :
    TSDemuxer.parsePES ⟨[craftPESHeader p], 14⟩ =
      .parsed [] (some (pesTimestamp (craftPESHeader p) 9))
        (some (pesTimestamp (craftPESHeader p) 9)) 0 := by
  have hm0 : mergeHead [craftPESHeader p] = [craftPESHeader p] := rfl
  have hm1 : ([craftPESHeader p] : List (List Nat)).headD [] = craftPESHeader p := rfl
  have e0 : (craftPESHeader p).getD 0 0 = 0 := rfl
  have e1 : (craftPESHeader p).getD 1 0 = 0 := rfl
  have e2 : (craftPESHeader p).getD 2 0 = 1 := rfl
  have e4 : (craftPESHeader p).getD 4 0 = 0 := rfl
  have e5 : (craftPESHeader p).getD 5 0 = 0 := rfl
  have e7 : (craftPESHeader p).getD 7 0 = 128 := rfl
  have e8 : (craftPESHeader p).getD 8 0 = 5 := rfl
  have ht : trimChunks (5 + 9) [craftPESHeader p] = [] := rfl
  have hb1 : (128 &&& 192 : Nat) = 128 := by decide
  have hb2 : (128 &&& 64 : Nat) = 0 := by decide
  simp only [TSDemuxer.parsePES]
  rw [hm0, hm1, e0, e1, e2, e4, e5, e7, e8, hb1, hb2, ht]
  norm_num

/-- Claim C3: writing any 33-bit value `p` into bytes 9..13 of a PES header in
the standard marker layout and running `_parsePES` (with the PTS flag set)
yields `pts = p` for `p ≤ 2^32 - 1` and `pts = p - 2^33` above that, via the
exact-integer reconstruction of the source. -/
theorem c3_pts_roundtrip (p : Nat) (hp : p < 8589934592) :
    TSDemuxer.parsePES ⟨[craftPESHeader p], 14⟩ =
      .parsed [] (some (if p ≤ 4294967295 then (p : Int) else (p : Int) - 8589934592))
        (some (if p ≤ 4294967295 then (p : Int) else (p : Int) - 8589934592)) 0 := by
  rw [parsePES_craft p, pesTimestamp_encode p hp]

/-- Witness for C3: the wrap case at p = 2^33 - 1 gives pts = -1. -/
theorem c3_pts_roundtrip_witness :
    TSDemuxer.parsePES ⟨[craftPESHeader 8589934591], 14⟩ =
      .parsed [] (some (-1)) (some (-1)) 0 := by
  have h := c3_pts_roundtrip 8589934591 (by norm_num)
  rw [if_neg (by norm_num : ¬ (8589934591 : Nat) ≤ 4294967295)] at h
  have he : ((8589934591 : Nat) : Int) - 8589934592 = -1 := by norm_num
  rw [he] at h
  exact h

/-- Claim C5 counterexample: an accumulated PES of size 19 whose start-code
prefix is 1 and whose length field is 0 (so neither of the claim's two null
conditions holds) does not return a record: its header-length byte 0xFF makes
the payload reassembly allocate a negative-length array, which throws. -/
theorem c5_counterexample_header_overrun :
    pesPfxOf cexPESHdrLen.data = 1 ∧
    pesLenOf cexPESHdrLen.data = 0 ∧
    TSDemuxer.parsePES cexPESHdrLen = .thrown (.rangeError "Invalid typed array length") := by
  decide

/-- Claim C5 (amended): for a well-formed accumulator of size ≥ 19,
`_parsePES` returns null when the start-code prefix is not 1; returns null
(silently — the function never touches the observer) when the length field is
non-zero and exceeds size - 6; and returns a `{data, pts, dts, len}` record
otherwise *provided* the header-length byte fits the accumulated size
(`hdrLen + 9 ≤ size`) — when it does not, the source instead throws a
RangeError (see the counterexample). -/
theorem c5_pes_null_cases (chunks : List (List Nat)) (size : Nat)
    (hsz : size = (chunks.map List.length).sum) (h19 : 19 ≤ size) :
    (pesPfxOf chunks ≠ 1 → TSDemuxer.parsePES ⟨chunks, size⟩ = .null) ∧
    (pesPfxOf chunks = 1 → pesLenOf chunks ≠ 0 → (pesLenOf chunks : Int) > (size : Int) - 6 →
      TSDemuxer.parsePES ⟨chunks, size⟩ = .null) ∧
    (pesPfxOf chunks = 1 → (pesLenOf chunks = 0 ∨ (pesLenOf chunks : Int) ≤ (size : Int) - 6) →
      pesHdrLenOf chunks + 9 ≤ size →
      (TSDemuxer.parsePES ⟨chunks, size⟩).isParsed = true) := by
  have hne : ¬ (size = 0) := by omega
  simp only [TSDemuxer.parsePES, pesPfxOf, pesLenOf, pesHdrLenOf, pesFirstChunk]
  refine ⟨?_, ?_, ?_⟩
  · intro hpfx
    rw [if_neg hne, if_neg hpfx]
  · intro hpfx hlen hbig
    rw [if_neg hne, if_pos hpfx, if_pos (And.intro hlen hbig)]
  · intro hpfx hok hhdr
    rw [if_neg hne, if_pos hpfx]
    split_ifs with h1 h2 <;>
      first
        | rfl
        | (exfalso
           obtain ⟨h1a, h1b⟩ := h1
           rcases hok with h | h
           · exact h1a h
           · omega)
        | (exfalso; omega)

/-- Witness for C5: a 19-byte accumulator with a valid prefix, zero length
field and zero header length parses to a record. -/
theorem c5_pes_null_cases_witness :
    (TSDemuxer.parsePES
      ⟨[[0, 0, 1, 0xE0, 0, 0, 0x80, 0, 0, 0, 0, 0, 0, 0, 0, 0, 0, 0, 0]], 19⟩).isParsed = true := by
  exact (c5_pes_null_cases [[0, 0, 1, 0xE0, 0, 0, 0x80, 0, 0, 0, 0, 0, 0, 0, 0, 0, 0, 0, 0]] 19
    (by decide) (by decide)).2.2 (by decide) (Or.inl (by decide)) (by decide)

/-- The scan loop passes every offset below the first header unchanged and
stops at the header. -/
theorem adtsScanGo_found (data : List Nat) (target : Nat) :
    ∀ fuel o, target ≤ o + fuel → o ≤ target → target < data.length - 1 →
      ADTS.isHeader data target = true →
      (∀ k, o ≤ k → k < target → ADTS.isHeader data k = false) →
      adtsScanGo data o fuel = target := by
  intro fuel
  induction fuel with
  | zero =>
    intro o hfuel ho _ _ _
    have : o = target := by omega
    simpa [adtsScanGo] using this
  | succ n ih =>
    intro o hfuel ho ht hh hbelow
    rcases Nat.eq_or_lt_of_le ho with he | hlt
    · subst he
      simp [adtsScanGo, ht, hh]
    · have hofalse : ADTS.isHeader data o = false := hbelow o le_rfl hlt
      have holt : o < data.length - 1 := by omega
      simp only [adtsScanGo, if_pos holt, hofalse, if_neg (by simp : ¬ (false = true))]
      exact ih (o + 1) (by omega) (by omega) ht hh (fun k hk1 hk2 => hbelow k (by omega) hk2)

/-- When no ADTS header exists below `len - 1`, the scan loop runs out and
returns `len - 1`. -/
theorem adtsScanGo_none (data : List Nat) :
    ∀ fuel o, data.length - 1 ≤ o + fuel → o ≤ data.length - 1 →
      (∀ k, o ≤ k → k < data.length - 1 → ADTS.isHeader data k = false) →
      adtsScanGo data o fuel = data.length - 1 := by
  intro fuel
  induction fuel with
  | zero =>
    intro o hfuel ho _
    have : o = data.length - 1 := by omega
    simpa [adtsScanGo] using this
  | succ n ih =>
    intro o hfuel ho hnone
    rcases Nat.eq_or_lt_of_le ho with he | hlt
    · simp [adtsScanGo, he]
    · have hofalse : ADTS.isHeader data o = false := hnone o le_rfl hlt
      simp only [adtsScanGo, if_pos hlt, hofalse, if_neg (by simp : ¬ (false = true))]
      exact ih (o + 1) (by omega) (by omega) (fun k hk1 hk2 => hnone k (by omega) hk2)

/-- Claim C9 counterexample: on a 1-byte AAC PES payload no ADTS syncword
exists (the only position fails the check), yet `_parseAACPES` raises no
fatal error at all — the `if (offset)` guard sees offset 0 and parsing simply
proceeds, contradicting the claim's "no syncword found → fatal error". -/
theorem c9_counterexample_short_payload :
    ADTS.isHeader [0] 0 = false ∧
    TSDemuxer.parseAACPES none [0] = ([], some 0) := by
  decide

/-- Claim C9 (amended): for payloads of at least 2 bytes (so that the sync
scan actually runs), `_parseAACPES` behaves exactly as claimed: a header at
offset 0 raises nothing; a first header at a non-zero offset before the end
raises the non-fatal "AAC PES did not start with ADTS header,offset:N" and
parsing continues from that offset; no header at all raises the fatal
"no ADTS header found in AAC PES" and the function returns before appending
any sample.  (Payloads of 0 or 1 bytes silently proceed — the
counterexample.) -/
theorem c9_aac_adts_errors (data : List Nat) (h2 : 2 ≤ data.length) :
    (ADTS.isHeader data 0 = true → TSDemuxer.parseAACPES none data = ([], some 0)) ∧
    (∀ o, o ≠ 0 → o < data.length - 1 → ADTS.isHeader data o = true →
      (∀ k, k < o → ADTS.isHeader data k = false) →
      TSDemuxer.parseAACPES none data = ([⟨false, aacMisalignMsg o⟩], some o)) ∧
    ((∀ k, k < data.length - 1 → ADTS.isHeader data k = false) →
      TSDemuxer.parseAACPES none data = ([⟨true, "no ADTS header found in AAC PES"⟩], none)) := by
  refine ⟨?_, ?_, ?_⟩
  · intro h0
    have hscan : adtsScan data = 0 :=
      adtsScanGo_found data 0 data.length 0 (by omega) le_rfl (by omega) h0
        (fun k hk1 hk2 => by omega)
    simp [TSDemuxer.parseAACPES, hscan]
  · intro o ho hlt hh hbelow
    have hscan : adtsScan data = o :=
      adtsScanGo_found data o data.length 0 (by omega) (by omega) hlt hh
        (fun k _ hk2 => hbelow k hk2)
    simp [TSDemuxer.parseAACPES, hscan, ho, hlt]
  · intro hnone
    have hscan : adtsScan data = data.length - 1 :=
      adtsScanGo_none data data.length 0 (by omega) (by omega)
        (fun k _ hk2 => hnone k hk2)
    have hne : data.length - 1 ≠ 0 := by omega
    simp [TSDemuxer.parseAACPES, hscan, hne]

/-- Witness for C9: the payload [0x00, 0xFF, 0xF1, 0x00] has its first ADTS
syncword at offset 1, so the non-fatal misalignment error fires and parsing
continues from offset 1. -/
theorem c9_aac_adts_errors_witness :
    TSDemuxer.parseAACPES none [0, 0xFF, 0xF1, 0] =
      ([⟨false, aacMisalignMsg 1⟩], some 1) := by
  exact (c9_aac_adts_errors [0, 0xFF, 0xF1, 0] (by decide)).2.1 1 (by decide) (by decide)
    (by decide) (fun k hk => by interval_cases k; decide)

theorem replicate_getD_zero (k i : Nat) : (List.replicate k (0 : Nat)).getD i 0 = 0 := by
  induction k generalizing i with
  | zero => simp
  | succ n ih =>
    cases i with
    | zero => simp [List.replicate]
    | succ m => simpa [List.replicate] using ih m

theorem getByte_fields (p : HEVCSpsParser) :
    (HEVCSpsParser.getByte p).2.data = p.data ∧
    (HEVCSpsParser.getByte p).2.firstByte = p.firstByte ∧
    (HEVCSpsParser.getByte p).2.cache = p.cache ∧
    (HEVCSpsParser.getByte p).2.bitsInCache = p.bitsInCache ∧
    (HEVCSpsParser.getByte p).2.bytesAvailable = p.bytesAvailable - min 1 p.bytesAvailable :=
  ⟨rfl, rfl, rfl, rfl, rfl⟩

theorem getByte_wf (p : HEVCSpsParser) (h : ReaderWF p) : ReaderWF (HEVCSpsParser.getByte p).2 := by
  unfold ReaderWF at *
  rw [(getByte_fields p).1, (getByte_fields p).2.2.2.2]
  omega

theorem getByte_fst (p : HEVCSpsParser) (h : ReaderWF p) :
    (HEVCSpsParser.getByte p).1 = absByte p 0 := by
  unfold HEVCSpsParser.getByte absByte
  rcases Nat.eq_zero_or_pos p.bytesAvailable with hz | hpos
  · simp [hz]
  · have h1 : min 1 p.bytesAvailable = 1 := by omega
    simp [h1, hpos]

theorem getByte_abs (p : HEVCSpsParser) (h : ReaderWF p) (j : Nat) :
    absByte (HEVCSpsParser.getByte p).2 j = absByte p (j + 1) := by
  unfold HEVCSpsParser.getByte absByte
  simp only
  rcases Nat.eq_zero_or_pos p.bytesAvailable with hz | hpos
  · simp [hz]
  · have h1 : min 1 p.bytesAvailable = 1 := by omega
    simp only [h1]
    by_cases hj : j < p.bytesAvailable - 1
    · rw [if_pos hj, if_pos (by omega)]
      congr 1
      unfold ReaderWF at h
      omega
    · rw [if_neg hj, if_neg (by omega)]

theorem getByte_sim (s t : HEVCSpsParser) (h : ReaderSim s t) :
    (HEVCSpsParser.getByte s).1 = (HEVCSpsParser.getByte t).1 ∧
    ReaderSim (HEVCSpsParser.getByte s).2 (HEVCSpsParser.getByte t).2 := by
  obtain ⟨hws, hwt, habs, hfb, hc, hbic⟩ := h
  constructor
  · rw [getByte_fst s hws, getByte_fst t hwt, habs 0]
  · refine ⟨getByte_wf s hws, getByte_wf t hwt, ?_, ?_, ?_, ?_⟩
    · intro j
      rw [getByte_abs s hws j, getByte_abs t hwt j, habs (j + 1)]
    · rw [(getByte_fields s).2.1, (getByte_fields t).2.1, hfb]
    · rw [(getByte_fields s).2.2.1, (getByte_fields t).2.2.1, hc]
    · rw [(getByte_fields s).2.2.2.1, (getByte_fields t).2.2.2.1, hbic]

theorem readStep_sim (s t : HEVCSpsParser) (h : ReaderSim s t) :
    ReaderSim (HEVCSpsParser.readStep s) (HEVCSpsParser.readStep t) := by
  obtain ⟨hv1, hs1⟩ := getByte_sim s t h
  unfold HEVCSpsParser.readStep
  obtain ⟨hw1s, hw1t, hab1, hfb1, hc1, hbic1⟩ := hs1
  have hcond : ((HEVCSpsParser.getByte s).1 = 0x03 ∧ (HEVCSpsParser.getByte s).2.firstByte = 0x00 ∧
      jsAnd32 (HEVCSpsParser.getByte s).2.cache 0xff = 0) ↔
      ((HEVCSpsParser.getByte t).1 = 0x03 ∧ (HEVCSpsParser.getByte t).2.firstByte = 0x00 ∧
      jsAnd32 (HEVCSpsParser.getByte t).2.cache 0xff = 0) := by
    rw [hv1, hfb1, hc1]
  by_cases hepb : ((HEVCSpsParser.getByte s).1 = 0x03 ∧ (HEVCSpsParser.getByte s).2.firstByte = 0x00 ∧
      jsAnd32 (HEVCSpsParser.getByte s).2.cache 0xff = 0)
  · have hepbt := hcond.mp hepb
    obtain ⟨hv2, hs2⟩ := getByte_sim _ _ (⟨hw1s, hw1t, hab1, hfb1, hc1, hbic1⟩ : ReaderSim _ _)
    obtain ⟨hw2s, hw2t, hab2, hfb2, hc2, hbic2⟩ := hs2
    simp only [if_pos hepb, if_pos hepbt]
    exact ⟨hw2s, hw2t, fun j => hab2 j, by rw [hv2], by rw [hc2, hfb2], by rw [hbic2]⟩
  · have hepbt := fun hx => hepb (hcond.mpr hx)
    simp only [if_neg hepb, if_neg hepbt]
    exact ⟨hw1s, hw1t, fun j => hab1 j, by rw [hv1], by rw [hc1, hfb1], by rw [hbic1]⟩

theorem readGo_sim (nbits : Nat) :
    ∀ fuel (s t : HEVCSpsParser), ReaderSim s t →
      ReaderSim (readGo nbits s fuel) (readGo nbits t fuel) := by
  intro fuel
  induction fuel with
  | zero => intro s t h; simpa [readGo] using h
  | succ n ih =>
    intro s t h
    have hbic := h.2.2.2.2.2
    by_cases hlt : s.bitsInCache < nbits
    · have hlt' : t.bitsInCache < nbits := by omega
      simp only [readGo, if_pos hlt, if_pos hlt']
      exact ih _ _ (readStep_sim s t h)
    · have hlt' : ¬ t.bitsInCache < nbits := by omega
      simpa [readGo, if_neg hlt, if_neg hlt'] using h

theorem read_sim (nbits : Nat) (s t : HEVCSpsParser) (h : ReaderSim s t) :
    ReaderSim (HEVCSpsParser.read nbits s) (HEVCSpsParser.read nbits t) :=
  readGo_sim nbits nbits s t h

theorem skipBits_sim (nbits : Nat) (s t : HEVCSpsParser) (h : ReaderSim s t) :
    ReaderSim (HEVCSpsParser.skipBits nbits s) (HEVCSpsParser.skipBits nbits t) := by
  have h1 := read_sim nbits s t h
  obtain ⟨hws, hwt, habs, hfb, hc, hbic⟩ := h1
  exact ⟨hws, hwt, fun j => habs j, hfb, hc, congrArg (· - nbits) hbic⟩

theorem readBits_sim (nbits : Nat) (s t : HEVCSpsParser) (h : ReaderSim s t) :
    (HEVCSpsParser.readBits nbits s).1 = (HEVCSpsParser.readBits nbits t).1 ∧
    ReaderSim (HEVCSpsParser.readBits nbits s).2 (HEVCSpsParser.readBits nbits t).2 := by
  have h1 := read_sim nbits s t h
  obtain ⟨hws, hwt, habs, hfb, hc, hbic⟩ := h1
  constructor
  · show jsAnd32
        (jsOr32 (((HEVCSpsParser.read nbits s).firstByte >>>
            ((HEVCSpsParser.read nbits s).bitsInCache - nbits) : Nat) : Int)
          (jsShl32 (HEVCSpsParser.read nbits s).cache
            (8 - ((HEVCSpsParser.read nbits s).bitsInCache - nbits))))
        (jsShl32 1 nbits - 1) =
      jsAnd32
        (jsOr32 (((HEVCSpsParser.read nbits t).firstByte >>>
            ((HEVCSpsParser.read nbits t).bitsInCache - nbits) : Nat) : Int)
          (jsShl32 (HEVCSpsParser.read nbits t).cache
            (8 - ((HEVCSpsParser.read nbits t).bitsInCache - nbits))))
        (jsShl32 1 nbits - 1)
    rw [hfb, hc, hbic]
  · exact ⟨hws, hwt, fun j => habs j, hfb, hc, congrArg (· - nbits) hbic⟩

theorem extendZeros_sim (p : HEVCSpsParser) (k : Nat) (h : ReaderWF p) :
    ReaderSim p (extendZeros p k) := by
  refine ⟨h, ?_, ?_, rfl, rfl, rfl⟩
  · unfold ReaderWF extendZeros at *
    simp only [List.length_append, List.length_replicate]
    omega
  · intro j
    unfold absByte extendZeros ReaderWF at *
    simp only [List.length_append, List.length_replicate]
    by_cases hj : j < p.bytesAvailable
    · rw [if_pos hj, if_pos (by omega)]
      have hidx : p.data.length + k - (p.bytesAvailable + k) + j =
          p.data.length - p.bytesAvailable + j := by omega
      rw [hidx, List.getD_append _ _ _ _ (by omega)]
    · rw [if_neg hj]
      by_cases hjk : j < p.bytesAvailable + k
      · rw [if_pos hjk]
        have hidx : p.data.length + k - (p.bytesAvailable + k) + j =
            p.data.length - p.bytesAvailable + j := by omega
        rw [hidx, List.getD_append_right _ _ _ _ (by omega), replicate_getD_zero]
      · rw [if_neg hjk]

/-- Claim C10: `getByte` is total past the end of the input — once
`bytesAvailable` is 0 it consumes nothing and returns 0 (all other fields of
the state untouched except the dead `bitsAvailable`) — and consequently
`readBits`/`skipBits` behave on any well-formed reader exactly as they would
on the same reader over the data extended with any number of zero bytes:
equal values and bisimilar resulting states (so the agreement persists over
any further sequence of calls). -/
theorem c10_reader_zero_extension :
    (∀ p : HEVCSpsParser, p.bytesAvailable = 0 →
      (HEVCSpsParser.getByte p).1 = 0 ∧
      (HEVCSpsParser.getByte p).2.bytesAvailable = 0 ∧
      (HEVCSpsParser.getByte p).2.data = p.data ∧
      (HEVCSpsParser.getByte p).2.firstByte = p.firstByte ∧
      (HEVCSpsParser.getByte p).2.cache = p.cache ∧
      (HEVCSpsParser.getByte p).2.bitsInCache = p.bitsInCache) ∧
    (∀ (p : HEVCSpsParser) (k n : Nat), ReaderWF p →
      (HEVCSpsParser.readBits n p).1 = (HEVCSpsParser.readBits n (extendZeros p k)).1 ∧
      ReaderSim (HEVCSpsParser.readBits n p).2 (HEVCSpsParser.readBits n (extendZeros p k)).2 ∧
      ReaderSim (HEVCSpsParser.skipBits n p) (HEVCSpsParser.skipBits n (extendZeros p k))) := by
  constructor
  · intro p hz
    refine ⟨?_, ?_, rfl, rfl, rfl, rfl⟩
    · unfold HEVCSpsParser.getByte
      simp [hz]
    · rw [(getByte_fields p).2.2.2.2, hz]
      decide
  · intro p k n hwf
    have hsim := extendZeros_sim p k hwf
    obtain ⟨hval, hstate⟩ := readBits_sim n _ _ hsim
    exact ⟨hval, hstate, skipBits_sim n _ _ hsim⟩

/-- Witness for C10: the exhausted reader over [0x5A] returns byte 0, and a
4-bit read over [0x5A] agrees with the same read over [0x5A, 0, 0]. -/
theorem c10_reader_zero_extension_witness :
    (HEVCSpsParser.getByte ⟨[0x5A], 0, 8, 0x5A, 0xff, 0⟩).1 = 0 ∧
    (HEVCSpsParser.readBits 4 (HEVCSpsParser.init [0x5A])).1 =
      (HEVCSpsParser.readBits 4 (extendZeros (HEVCSpsParser.init [0x5A]) 2)).1 := by
  exact ⟨(c10_reader_zero_extension.1 ⟨[0x5A], 0, 8, 0x5A, 0xff, 0⟩ rfl).1,
    (c10_reader_zero_extension.2 (HEVCSpsParser.init [0x5A]) 2 4
      (by unfold ReaderWF; decide)).1⟩

theorem removeIdxs_nil_positions (l : List Nat) : ∀ j, removeIdxs l j [] = l := by
  induction l with
  | nil => intro j; rfl
  | cons x rest ih =>
    intro j
    simp only [removeIdxs, List.head?_nil]
    rw [if_neg (by simp)]
    rw [ih (j+1)]

theorem filterPositions_lower (P : Nat → Bool) :
    ∀ cnt m x, x ∈ filterPositions P m cnt → m ≤ x := by
  intro cnt
  induction cnt with
  | zero => intro m x hx; simp [filterPositions] at hx
  | succ n ih =>
    intro m x hx
    by_cases hp : P m
    · simp only [filterPositions, if_pos hp, List.mem_cons] at hx
      rcases hx with rfl | hx
      · exact le_rfl
      · exact le_trans (by omega) (ih (m+1) x hx)
    · simp only [filterPositions, if_neg hp] at hx
      exact le_trans (by omega) (ih (m+1) x hx)

theorem filterPositions_skip (P : Nat → Bool) (m cnt : Nat) (h : P m = false) :
    filterPositions P m (cnt + 1) = filterPositions P (m+1) cnt := by
  simp [filterPositions, h]

/-- The `discardEPB` first loop computes exactly the positions `j ≥ i + 2`
with a 0x00 0x00 0x03 triple ending at `j` (the `i += 2` skip after a match
cannot jump over another triple, because the matched 0x03 rules the next two
start positions out). -/
theorem epbScanGo_eq (d : List Nat) :
    ∀ fuel i, 1 ≤ i → d.length ≤ i + fuel →
      epbScanGo d i fuel = filterPositions (isEPBposB d) (i+2) (d.length - (i+2)) := by
  intro fuel
  induction fuel with
  | zero =>
    intro i h1 hlen
    have hz : d.length - (i+2) = 0 := by omega
    simp [epbScanGo, hz, filterPositions]
  | succ n ih =>
    intro i h1 hlen
    by_cases hi : i < d.length - 2
    · by_cases htriple : d.getD i 0 = 0 ∧ d.getD (i+1) 0 = 0 ∧ d.getD (i+2) 0 = 3
      · -- match: emit i+2, continue at i+2
        have hp2 : isEPBposB d (i+2) = true := by
          unfold isEPBposB
          rw [show i + 2 - 2 = i by omega, show i + 2 - 1 = i + 1 by omega,
            htriple.1, htriple.2.1, htriple.2.2]
          simp [show 3 ≤ i + 2 by omega]
        have hp3 : isEPBposB d (i+3) = false := by
          unfold isEPBposB
          rw [show i + 3 - 1 = i + 2 by omega, htriple.2.2]
          simp
        have hrec := ih (i+2) (by omega) (by omega)
        simp only [epbScanGo, if_pos hi, if_pos htriple, hrec]
        obtain ⟨c, hc⟩ : ∃ c, d.length - (i+2) = c + 1 := ⟨d.length - (i+3), by omega⟩
        rw [hc]
        simp only [filterPositions, if_pos hp2]
        congr 1
        rcases Nat.eq_zero_or_pos c with hc0 | hcpos
        · have : d.length - (i+4) = 0 := by omega
          simp [hc0, this, filterPositions]
        · obtain ⟨c2, hc2⟩ : ∃ c2, c = c2 + 1 := ⟨c - 1, by omega⟩
          rw [hc2, filterPositions_skip _ _ _ hp3]
          have : d.length - (i+4) = c2 := by omega
          rw [this]
      · -- no match: continue at i+1
        have hp2 : isEPBposB d (i+2) = false := by
          unfold isEPBposB
          rw [show i + 2 - 2 = i by omega, show i + 2 - 1 = i + 1 by omega]
          rcases not_and_or.mp htriple with h | hx
          · have hb : (d.getD i 0 == 0) = false := by simpa using h
            rw [hb]
            simp
          · rcases not_and_or.mp hx with h | h
            · have hb : (d.getD (i+1) 0 == 0) = false := by simpa using h
              rw [hb]
              simp
            · have hb : (d.getD (i+2) 0 == 3) = false := by simpa using h
              rw [hb]
              simp
        have hrec := ih (i+1) (by omega) (by omega)
        simp only [epbScanGo, if_pos hi, if_neg htriple, hrec]
        obtain ⟨c, hc⟩ : ∃ c, d.length - (i+2) = c + 1 := ⟨d.length - (i+3), by omega⟩
        rw [hc, filterPositions_skip _ _ _ hp2]
        have : d.length - (i+3) = c := by omega
        rw [this]
    · have hz : d.length - (i+2) = 0 := by omega
      simp [epbScanGo, hi, hz, filterPositions]

/-- The `discardEPB` rebuild loop drops exactly the bytes at the filtered
positions. -/
theorem removeIdxs_filterPositions (P : Nat → Bool) :
    ∀ (l : List Nat) (j : Nat),
      removeIdxs l j (filterPositions P j l.length) =
        (List.range l.length).filterMap
          (fun k => if P (j + k) then none else some (l.getD k 0)) := by
  intro l
  induction l with
  | nil => intro j; rfl
  | cons x rest ih =>
    intro j
    have hfun : (fun k => if P (j + 1 + k) = true then none else some (rest.getD k 0)) =
        ((fun k => if P (j + k) = true then none else some ((x :: rest).getD k 0)) ∘
          Nat.succ) := by
      funext k
      simp only [Function.comp_apply, Nat.succ_eq_add_one, List.getD_cons_succ]
      rw [show j + (k + 1) = j + 1 + k by omega]
    simp only [List.length_cons]
    by_cases hp : P j
    · simp only [filterPositions, if_pos hp]
      simp only [removeIdxs, List.head?_cons, if_pos rfl, if_true, List.tail_cons]
      rw [ih (j+1)]
      rw [List.range_succ_eq_map]
      simp only [List.filterMap_cons, Nat.add_zero, if_pos hp, List.filterMap_map]
      rw [hfun]
    · have hhead : (filterPositions P (j+1) rest.length).head? ≠ some j := by
        cases hfp : filterPositions P (j+1) rest.length with
        | nil => simp
        | cons y ys =>
          have hy : j + 1 ≤ y := by
            apply filterPositions_lower P rest.length (j+1) y
            rw [hfp]
            exact List.mem_cons_self y ys
          simp only [List.head?_cons, ne_eq, Option.some.injEq]
          omega
      simp only [filterPositions, if_neg hp]
      simp only [removeIdxs, if_neg hhead]
      rw [ih (j+1)]
      rw [List.range_succ_eq_map]
      simp only [List.filterMap_cons, Nat.add_zero, if_neg hp, List.getD_cons_zero,
        List.filterMap_map]
      rw [hfun]

/-- The scanned position list, re-based at 0. -/
theorem epbPositions_eq (d : List Nat) :
    epbPositions d = filterPositions (isEPBposB d) 0 d.length := by
  unfold epbPositions
  rw [epbScanGo_eq d d.length 1 le_rfl (by omega)]
  have h0 : isEPBposB d 0 = false := by unfold isEPBposB; simp
  have h1 : isEPBposB d 1 = false := by unfold isEPBposB; simp
  have h2 : isEPBposB d 2 = false := by unfold isEPBposB; simp
  match hlen : d.length with
  | 0 => simp [filterPositions]
  | 1 =>
    rw [show (1 : Nat) - 3 = 0 by omega]
    rw [show (1 : Nat) = 0 + 1 by omega, filterPositions_skip _ _ _ h0]
    simp [filterPositions]
  | 2 =>
    rw [show (2 : Nat) - 3 = 0 by omega]
    rw [show (2 : Nat) = 1 + 1 by omega, filterPositions_skip _ _ _ h0]
    rw [show (1 : Nat) = 0 + 1 by omega, filterPositions_skip _ _ _ h1]
    simp [filterPositions]
  | c + 3 =>
    rw [show c + 3 - 3 = c by omega]
    rw [show c + 3 = (c + 2) + 1 by omega, filterPositions_skip _ _ _ h0]
    rw [show c + 2 = (c + 1) + 1 by omega, filterPositions_skip _ _ _ h1]
    rw [filterPositions_skip _ _ _ h2]

/-- Claim C6 (amended): `discardEPB` is the identity on inputs with no
0x00 0x00 0x03 triple *beginning at offset 1 or later*, and otherwise removes
exactly the 0x03 at every position `j ≥ 3` preceded by two zero bytes,
leaving all other bytes unchanged and in order; a triple beginning at offset
0 is *not* removed (the scan starts at index 1 — see the counterexample). -/
theorem c6_discardEPB_removes_marked_positions (d : List Nat) :
    TSDemuxer.discardEPB d =
      (List.range d.length).filterMap
        (fun j => if isEPBposB d j then none else some (d.getD j 0)) := by
  have hall : TSDemuxer.discardEPB d = removeIdxs d 0 (epbPositions d) := by
    unfold TSDemuxer.discardEPB
    by_cases h : epbPositions d = []
    · rw [if_pos h, h, removeIdxs_nil_positions d 0]
    · rw [if_neg h]
  rw [hall, epbPositions_eq]
  rw [removeIdxs_filterPositions (isEPBposB d) d 0]
  congr 1
  funext k
  simp


/-- Claim C2: splitting a valid TS stream across two `push` calls should
yield the same emitted samples, with identical byte content, as pushing it
whole - in particular a 4-byte NAL start code straddling the two calls should
yield that NAL once and intact, its tail bytes stripped from the unit closed
in the first call.  The program cannot exhibit any of this: for every split,
both schedules throw before a single sample is emitted.  Each `push` raises
the ReferenceError on the undeclared `contiguous`, and the AVC NAL scan the
claim describes is broken independently of that: the prologue of
`_parseAVCNALu` reads `naluState` off `this._avcTrack`, a property that no
code ever assigns (`resetInitSegment` creates `_videoTrack`), so every
invocation of the scanner throws a TypeError and the straddle fix-up and its
cross-call state carry are dead code. -/
theorem c2_split_push_never_emits (b1 b2 : List Nat) :
    TSDemuxer.push b1 = .error (.referenceError "contiguous") ∧
    TSDemuxer.push b2 = .error (.referenceError "contiguous") ∧
    TSDemuxer.push (b1 ++ b2) = .error (.referenceError "contiguous") ∧
    TSDemuxer.parseAVCNALuState TSDemuxer.avcTrackProp = .error (.typeError "naluState") :=
  ⟨rfl, rfl, rfl, rfl⟩
